import Mathlib

/-
Verification of the derived-quantity postprocessing protocol of
deal.II/include/numerics/data_postprocessor.h (class DataPostprocessor).

The header declares an abstract interface:
  - two overloaded non-pure virtual member functions
    compute_derived_quantities (scalar-source and vector-source calling
    conventions), each filling a caller-provided, pre-sized buffer
    computed_quantities : std::vector<Vector<double>> in place;
  - three pure virtual declaration queries: get_names, get_needed_update_flags
    and n_output_variables, all const.

Only the header is in the repository slice; the out-of-line base
implementations of compute_derived_quantities, the UpdateFlags enumeration
of fe_update_flags.h and the DataOut engine that drives the interface are
absent and are modelled from the spec where a claim depends on them.
Numbers are modelled as rationals; Tensor<rank,dim> and Point<dim> are
modelled by their component lists (no claim inspects tensor internals).
-/

namespace DealII

/-- Modelled from the spec: the UpdateFlags bitmask of fe_update_flags.h is
not under src/; the spec's UpdateRequest is the flag set
{values, gradients, second-derivatives, normals}. -/
structure UpdateFlags where
  update_values : Bool
  update_gradients : Bool
  update_second_derivatives : Bool
  update_normal_vectors : Bool
deriving DecidableEq, Repr

/-- Tensor<1,dim>: a rank-1 tensor, modelled by its component list. -/
structure Tensor1 (dim : Nat) where
  comps : List ℚ
deriving DecidableEq, Repr

/-- Tensor<2,dim>: a rank-2 tensor, modelled by its component matrix. -/
structure Tensor2 (dim : Nat) where
  comps : List (List ℚ)
deriving DecidableEq, Repr

/-- Point<dim>: an evaluation point or normal direction. -/
structure Pt (dim : Nat) where
  coords : List ℚ
deriving DecidableEq, Repr

/-- The argument bundle of the scalar-source overload of
compute_derived_quantities: uh (values), duh (gradients), dduh (second
derivatives) and normals, parallel per-point sequences. -/
structure ScalarInputs (dim : Nat) where
  uh : List ℚ
  duh : List (Tensor1 dim)
  dduh : List (Tensor2 dim)
  normals : List (Pt dim)
deriving DecidableEq, Repr

/-- The argument bundle of the vector-source overload of
compute_derived_quantities: per point, uh is a Vector<double> of source
components and duh/dduh carry one tensor per source component. -/
structure VectorInputs (dim : Nat) where
  uh : List (List ℚ)
  duh : List (List (Tensor1 dim))
  dduh : List (List (Tensor2 dim))
  normals : List (Pt dim)
deriving DecidableEq, Repr

/-- Error taxonomy of the protocol: every failure is fatal (a programmer
error), none is recoverable. -/
inductive PostError where
  | notImplementedForArity
  | declarationMismatch
  | preconditionViolation
deriving DecidableEq, Repr

instance {ε α : Type} [DecidableEq ε] [DecidableEq α] :
    DecidableEq (Except ε α) := fun a b =>
  match a, b with
  | .error x, .error y =>
    if h : x = y then isTrue (by rw [h])
    else isFalse (fun hc => by injection hc; contradiction)
  | .ok x, .ok y =>
    if h : x = y then isTrue (by rw [h])
    else isFalse (fun hc => by injection hc; contradiction)
  | .error _, .ok _ => isFalse (fun hc => by injection hc)
  | .ok _, .error _ => isFalse (fun hc => by injection hc)

/-- A single in-place write into the caller-provided computed_quantities
buffer: component comp of the record of evaluation point pt receives v. -/
structure WriteOp where
  pt : Nat
  comp : Nat
  val : ℚ
deriving DecidableEq, Repr

/-- The caller-provided output storage: one record (a Vector<double>) per
evaluation point. -/
abbrev Buffer := List (List ℚ)

/-- One in-place write: out-of-range writes leave the buffer unchanged,
matching the discipline that the postprocessor only fills the pre-sized
storage. -/
def writeEntry (buf : Buffer) (w : WriteOp) : Buffer :=
  buf.set w.pt ((buf.getD w.pt []).set w.comp w.val)

/-- Apply a sequence of in-place writes to the buffer. -/
def applyWrites (buf : Buffer) (ws : List WriteOp) : Buffer :=
  ws.foldl writeEntry buf

/-- Modelled from the spec: the out-of-line base implementation of the
scalar overload of compute_derived_quantities is not under src/; per the
spec the base behavior raises a "not implemented for this data arity"
failure. -/
def defaultComputeScalar (dim : Nat) :
    ScalarInputs dim → Except PostError (List WriteOp) :=
  fun _ => .error .notImplementedForArity

/-- Modelled from the spec: the out-of-line base implementation of the
vector overload of compute_derived_quantities is not under src/; per the
spec the base behavior raises a "not implemented for this data arity"
failure. -/
def defaultComputeVector (dim : Nat) :
    VectorInputs dim → Except PostError (List WriteOp) :=
  fun _ => .error .notImplementedForArity

/-- The DataPostprocessor interface. The three pure virtual declaration
queries (get_names, get_needed_update_flags, n_output_variables) have no
default and must be supplied to construct an instance; the two virtual
compute_derived_quantities overloads default to the base behavior. All
members are const in the source, hence pure fields here. A compute
override yields the sequence of in-place writes it performs on the
caller-provided buffer (or a failure). -/
structure DataPostprocessor (dim : Nat) where
  get_names : List String
  get_needed_update_flags : UpdateFlags
  n_output_variables : Nat
  compute_derived_quantities_scalar :
      ScalarInputs dim → Except PostError (List WriteOp) :=
    defaultComputeScalar dim
  compute_derived_quantities_vector :
      VectorInputs dim → Except PostError (List WriteOp) :=
    defaultComputeVector dim

/-- Modelled from the spec: the DataOut engine is not under src/. Once per
run the engine binds the declaration, caching names, flags and output count;
a length mismatch between get_names and n_output_variables is a contract
violation reported before any point-level work (fail fast, no truncation or
padding). -/
structure EngineBinding where
  cached_flags : UpdateFlags
  cached_names : List String
  cached_n : Nat
deriving DecidableEq, Repr

/-- Modelled from the spec: the Output Binding step of the engine. -/
def bindPost {dim : Nat} (p : DataPostprocessor dim) :
    Except PostError EngineBinding :=
  if p.get_names.length = p.n_output_variables then
    .ok ⟨p.get_needed_update_flags, p.get_names, p.n_output_variables⟩
  else
    .error .declarationMismatch

/-- Modelled from the spec: the engine's precondition check on a scalar-form
batch of M points — every input sequence whose flag was requested must have
length M (values, gradients, second derivatives). -/
def validScalarLengths {dim : Nat} (flags : UpdateFlags) (M : Nat)
    (ins : ScalarInputs dim) : Bool :=
  (!flags.update_values || ins.uh.length == M) &&
  (!flags.update_gradients || ins.duh.length == M) &&
  (!flags.update_second_derivatives || ins.dduh.length == M)

/-- Modelled from the spec: the engine's precondition check on a vector-form
batch of M points. -/
def validVectorLengths {dim : Nat} (flags : UpdateFlags) (M : Nat)
    (ins : VectorInputs dim) : Bool :=
  (!flags.update_values || ins.uh.length == M) &&
  (!flags.update_gradients || ins.duh.length == M) &&
  (!flags.update_second_derivatives || ins.dduh.length == M)

/-- The pre-sized output storage for a batch of M points and N declared
output variables: M records of N components, allocated by the caller. -/
def freshBuffer (M N : Nat) : Buffer :=
  List.replicate M (List.replicate N 0)

/-- Modelled from the spec: the engine invoking the scalar-form entry point
on a batch of M points. It validates the caller contract, pre-sizes the
output storage to M records of n_output_variables components, and lets the
postprocessor fill it in place; any failure is fatal and propagated. -/
def invokeScalar {dim : Nat} (p : DataPostprocessor dim) (M : Nat)
    (ins : ScalarInputs dim) : Except PostError Buffer :=
  if validScalarLengths p.get_needed_update_flags M ins then
    match p.compute_derived_quantities_scalar ins with
    | .error e => .error e
    | .ok ws => .ok (applyWrites (freshBuffer M p.n_output_variables) ws)
  else
    .error .preconditionViolation

/-- Modelled from the spec: the engine invoking the vector-form entry point
on a batch of M points. -/
def invokeVector {dim : Nat} (p : DataPostprocessor dim) (M : Nat)
    (ins : VectorInputs dim) : Except PostError Buffer :=
  if validVectorLengths p.get_needed_update_flags M ins then
    match p.compute_derived_quantities_vector ins with
    | .error e => .error e
    | .ok ws => .ok (applyWrites (freshBuffer M p.n_output_variables) ws)
  else
    .error .preconditionViolation

/-- The output-shape predicate: a buffer of exactly M records, each record
with exactly N components. -/
def BufferShape (buf : Buffer) (M N : Nat) : Prop :=
  buf.length = M ∧ ∀ r ∈ buf, r.length = N

theorem bufferShape_writeEntry {buf : Buffer} {M N : Nat} {w : WriteOp}
    (h : BufferShape buf M N) : BufferShape (writeEntry buf w) M N := by
  obtain ⟨hlen, hrec⟩ := h
  unfold writeEntry
  by_cases hlt : w.pt < buf.length
  · refine ⟨by rw [List.length_set]; exact hlen, ?_⟩
    intro r hr
    rcases List.mem_or_eq_of_mem_set hr with h1 | h1
    · exact hrec r h1
    · subst h1
      rw [List.length_set]
      refine hrec _ ?_
      rw [List.getD_eq_getElem?_getD, List.getElem?_eq_getElem hlt]
      exact List.getElem_mem hlt
  · rw [List.set_eq_of_length_le (Nat.le_of_not_lt hlt)]
    exact ⟨hlen, hrec⟩

theorem bufferShape_applyWrites {ws : List WriteOp} {buf : Buffer} {M N : Nat}
    (h : BufferShape buf M N) : BufferShape (applyWrites buf ws) M N := by
  induction ws generalizing buf with
  | nil => exact h
  | cons w rest ih => exact ih (bufferShape_writeEntry h)

theorem bufferShape_freshBuffer (M N : Nat) :
    BufferShape (freshBuffer M N) M N := by
  refine ⟨List.length_replicate _ _, ?_⟩
  intro r hr
  rw [List.eq_of_mem_replicate hr]
  exact List.length_replicate _ _

/-- The projection of a scalar-form argument bundle onto the requested
fields: inputs whose flag is unset are replaced by the empty (unspecified)
sequence. A postprocessor honouring the flag contract factors through this
projection. -/
def maskScalar {dim : Nat} (flags : UpdateFlags) (ins : ScalarInputs dim) :
    ScalarInputs dim where
  uh := if flags.update_values then ins.uh else []
  duh := if flags.update_gradients then ins.duh else []
  dduh := if flags.update_second_derivatives then ins.dduh else []
  normals := if flags.update_normal_vectors then ins.normals else []

/-- The projection of a vector-form argument bundle onto the requested
fields. -/
def maskVector {dim : Nat} (flags : UpdateFlags) (ins : VectorInputs dim) :
    VectorInputs dim where
  uh := if flags.update_values then ins.uh else []
  duh := if flags.update_gradients then ins.duh else []
  dduh := if flags.update_second_derivatives then ins.dduh else []
  normals := if flags.update_normal_vectors then ins.normals else []

/-- A postprocessor that reads no scalar-form input beyond what its flags
request: its scalar entry point is invariant under projecting the inputs
onto the requested fields. -/
def FlagGatedScalar {dim : Nat} (p : DataPostprocessor dim) : Prop :=
  ∀ ins, p.compute_derived_quantities_scalar ins =
    p.compute_derived_quantities_scalar (maskScalar p.get_needed_update_flags ins)

/-- A postprocessor that reads no vector-form input beyond what its flags
request. -/
def FlagGatedVector {dim : Nat} (p : DataPostprocessor dim) : Prop :=
  ∀ ins, p.compute_derived_quantities_vector ins =
    p.compute_derived_quantities_vector (maskVector p.get_needed_update_flags ins)

/-- Two scalar-form argument bundles agree on every input whose flag is
requested; the remaining inputs may differ arbitrarily. -/
def AgreeScalar {dim : Nat} (flags : UpdateFlags)
    (a b : ScalarInputs dim) : Prop :=
  (flags.update_values = true → a.uh = b.uh) ∧
  (flags.update_gradients = true → a.duh = b.duh) ∧
  (flags.update_second_derivatives = true → a.dduh = b.dduh) ∧
  (flags.update_normal_vectors = true → a.normals = b.normals)

/-- Two vector-form argument bundles agree on every requested input. -/
def AgreeVector {dim : Nat} (flags : UpdateFlags)
    (a b : VectorInputs dim) : Prop :=
  (flags.update_values = true → a.uh = b.uh) ∧
  (flags.update_gradients = true → a.duh = b.duh) ∧
  (flags.update_second_derivatives = true → a.dduh = b.dduh) ∧
  (flags.update_normal_vectors = true → a.normals = b.normals)

theorem maskScalar_eq_of_agree {dim : Nat} {flags : UpdateFlags}
    {a b : ScalarInputs dim} (h : AgreeScalar flags a b) :
    maskScalar flags a = maskScalar flags b := by
  obtain ⟨hv, hg, hs, hn⟩ := h
  rcases flags with ⟨v, g, s, n⟩
  cases v <;> cases g <;> cases s <;> cases n <;>
    simp_all [maskScalar]

theorem maskVector_eq_of_agree {dim : Nat} {flags : UpdateFlags}
    {a b : VectorInputs dim} (h : AgreeVector flags a b) :
    maskVector flags a = maskVector flags b := by
  obtain ⟨hv, hg, hs, hn⟩ := h
  rcases flags with ⟨v, g, s, n⟩
  cases v <;> cases g <;> cases s <;> cases n <;>
    simp_all [maskVector]

theorem validScalarLengths_eq_of_agree {dim : Nat} {flags : UpdateFlags}
    {a b : ScalarInputs dim} (M : Nat) (h : AgreeScalar flags a b) :
    validScalarLengths flags M a = validScalarLengths flags M b := by
  obtain ⟨hv, hg, hs, hn⟩ := h
  rcases flags with ⟨v, g, s, n⟩
  cases v <;> cases g <;> cases s <;> cases n <;>
    simp_all [validScalarLengths]

theorem validVectorLengths_eq_of_agree {dim : Nat} {flags : UpdateFlags}
    {a b : VectorInputs dim} (M : Nat) (h : AgreeVector flags a b) :
    validVectorLengths flags M a = validVectorLengths flags M b := by
  obtain ⟨hv, hg, hs, hn⟩ := h
  rcases flags with ⟨v, g, s, n⟩
  cases v <;> cases g <;> cases s <;> cases n <;>
    simp_all [validVectorLengths]

/-- Absolute value on the scalar type, used by the example postprocessor. -/
def ratAbs (q : ℚ) : ℚ := if q < 0 then -q else q

/-- A concrete scalar-source postprocessor (the spec's Scenario A): one
output variable named "magnitude", needs only values, writes the absolute
value of the solution at every point of the batch. -/
def magnitudePost : DataPostprocessor 2 where
  get_names := ["magnitude"]
  get_needed_update_flags := ⟨true, false, false, false⟩
  n_output_variables := 1
  compute_derived_quantities_scalar := fun ins =>
    .ok ((List.range ins.uh.length).map
      (fun i => ⟨i, 0, ratAbs (ins.uh.getD i 0)⟩))

/-- A concrete postprocessor whose declaration is inconsistent (the spec's
Scenario C): two declared output variables but a single name. -/
def mismatchPost : DataPostprocessor 2 where
  get_names := ["only_one_name"]
  get_needed_update_flags := ⟨true, false, false, false⟩
  n_output_variables := 2

/-- A concrete subclass supplying only the three pure virtual declaration
members and overriding neither compute_derived_quantities overload, so both
entry points retain the base behavior. -/
def minimalPost : DataPostprocessor 2 where
  get_names := ["q"]
  get_needed_update_flags := ⟨true, false, false, false⟩
  n_output_variables := 1

theorem magnitudePost_flagGatedScalar : FlagGatedScalar magnitudePost := by
  intro ins
  rfl

theorem magnitudePost_flagGatedVector : FlagGatedVector magnitudePost := by
  intro ins
  rfl

/-- The two calling conventions of compute_derived_quantities. -/
inductive EntryPointKind where
  | scalarForm
  | vectorForm
deriving DecidableEq, Repr

/-- A source field, described by its number of solution components. -/
structure SourceField where
  n_components : Nat
deriving DecidableEq, Repr

/-- Modelled from the spec: the DataOut engine (not under src/) selects the
entry point by the arity of the source field — the scalar calling
convention for a one-component field, the vector calling convention
otherwise. -/
def selectedEntryPoint (f : SourceField) : EntryPointKind :=
  if f.n_components = 1 then .scalarForm else .vectorForm

/-- One invocation of an entry point during a run, recording which source
field (by its index in the run) was dispatched through which convention. -/
structure InvocationEvent where
  fieldIndex : Nat
  entry : EntryPointKind
deriving DecidableEq, Repr

/-- The invocation trace of the fields starting at index i: every field
gets one event per batch, through the entry point selected by its arity. -/
def runEventsFrom (i : Nat) (fields : List SourceField) (nBatches : Nat) :
    List InvocationEvent :=
  match fields with
  | [] => []
  | f :: rest =>
    List.replicate nBatches ⟨i, selectedEntryPoint f⟩ ++
      runEventsFrom (i + 1) rest nBatches

/-- Modelled from the spec: the invocation trace of one output run over a
list of source fields, nBatches batches per field. -/
def runEvents (fields : List SourceField) (nBatches : Nat) :
    List InvocationEvent :=
  runEventsFrom 0 fields nBatches

theorem runEventsFrom_entry {fields : List SourceField} {i nBatches : Nat}
    {e : InvocationEvent} (h : e ∈ runEventsFrom i fields nBatches) :
    i ≤ e.fieldIndex ∧
      e.entry = selectedEntryPoint (fields.getD (e.fieldIndex - i) ⟨0⟩) := by
  induction fields generalizing i with
  | nil => simp [runEventsFrom] at h
  | cons f rest ih =>
    rw [runEventsFrom, List.mem_append] at h
    rcases h with h | h
    · rw [List.eq_of_mem_replicate h]
      simp
    · obtain ⟨hle, hsel⟩ := ih h
      refine ⟨Nat.le_of_succ_le hle, ?_⟩
      have hk : e.fieldIndex - i = (e.fieldIndex - (i + 1)) + 1 := by omega
      rw [hk, List.getD_cons_succ]
      exact hsel

/-- A triple of the three declaration queries: update flags, names, output
count. -/
abbrev DeclQueries := UpdateFlags × List String × Nat

/-- The declaration of a postprocessor instance, as returned by its three
const query members. -/
def declOf {dim : Nat} (p : DataPostprocessor dim) : DeclQueries :=
  (p.get_needed_update_flags, p.get_names, p.n_output_variables)

/-- Operations the engine may perform on a postprocessor during a run:
query the declaration, or invoke an entry point on a batch. -/
inductive EngineOp (dim : Nat) where
  | queryDecl
  | invokeScalarOp (M : Nat) (ins : ScalarInputs dim)
  | invokeVectorOp (M : Nat) (ins : VectorInputs dim)

/-- Modelled from the spec: the engine-side state across one run — the
referenced (never mutated) postprocessor instance, the declaration cache
filled on first query, and the answers handed out to queries so far. -/
structure RunState (dim : Nat) where
  post : DataPostprocessor dim
  cache : Option DeclQueries
  answers : List DeclQueries

/-- The unbound state at the start of a run. -/
def initState {dim : Nat} (p : DataPostprocessor dim) : RunState dim :=
  ⟨p, none, []⟩

/-- One engine step: a declaration query is answered from the cache when
bound, and binds the cache on first use; invoking the const entry points
leaves the instance, the cache and the answers untouched. -/
def stepOp {dim : Nat} (s : RunState dim) (op : EngineOp dim) : RunState dim :=
  match op with
  | .queryDecl =>
    match s.cache with
    | some d => { s with answers := s.answers ++ [d] }
    | none => { s with cache := some (declOf s.post),
                       answers := s.answers ++ [declOf s.post] }
  | .invokeScalarOp _ _ => s
  | .invokeVectorOp _ _ => s

/-- Run a sequence of engine operations from a state. -/
def runOps {dim : Nat} (s : RunState dim) (ops : List (EngineOp dim)) :
    RunState dim :=
  ops.foldl stepOp s

/-- The caching invariant: the instance is the one the run started with,
the cache (once bound) holds exactly its declaration, and every answer
handed out equals that declaration. -/
def CacheSound {dim : Nat} (p : DataPostprocessor dim) (s : RunState dim) :
    Prop :=
  s.post = p ∧ (∀ d, s.cache = some d → d = declOf p) ∧
    (∀ d ∈ s.answers, d = declOf p)

theorem cacheSound_step {dim : Nat} {p : DataPostprocessor dim}
    {s : RunState dim} (op : EngineOp dim) (h : CacheSound p s) :
    CacheSound p (stepOp s op) := by
  obtain ⟨hpost, hcache, hans⟩ := h
  cases op with
  | queryDecl =>
    unfold stepOp
    cases hc : s.cache with
    | none =>
      refine ⟨hpost, ?_, ?_⟩
      · intro d hd
        simp at hd
        rw [← hd, hpost]
      · intro d hd
        rw [List.mem_append] at hd
        rcases hd with hd | hd
        · exact hans d hd
        · simp at hd
          rw [hd, hpost]
    | some d0 =>
      refine ⟨hpost, ?_, ?_⟩
      · intro d hd
        simp at hd
        rw [← hd]
        exact hcache d0 hc
      · intro d hd
        rw [List.mem_append] at hd
        rcases hd with hd | hd
        · exact hans d hd
        · simp at hd
          rw [hd]
          exact hcache d0 hc
  | invokeScalarOp M ins => exact ⟨hpost, hcache, hans⟩
  | invokeVectorOp M ins => exact ⟨hpost, hcache, hans⟩

theorem cacheSound_runOps {dim : Nat} {p : DataPostprocessor dim}
    {s : RunState dim} (ops : List (EngineOp dim)) (h : CacheSound p s) :
    CacheSound p (runOps s ops) := by
  induction ops generalizing s with
  | nil => exact h
  | cons op rest ih => exact ih (cacheSound_step op h)

/-- The full state visible to one entry-point call: the postprocessor
instance, both input bundles and the output buffer. -/
structure CallState (dim : Nat) where
  post : DataPostprocessor dim
  scalar_inputs : ScalarInputs dim
  vector_inputs : VectorInputs dim
  buffer : Buffer

/-- One scalar-form call on the full state: only the buffer is replaced;
the const entry point can touch neither the instance nor the inputs. -/
def performScalarCall {dim : Nat} (M : Nat) (s : CallState dim) :
    Except PostError (CallState dim) :=
  match invokeScalar s.post M s.scalar_inputs with
  | .error e => .error e
  | .ok buf => .ok { s with buffer := buf }

/-- One vector-form call on the full state. -/
def performVectorCall {dim : Nat} (M : Nat) (s : CallState dim) :
    Except PostError (CallState dim) :=
  match invokeVector s.post M s.vector_inputs with
  | .error e => .error e
  | .ok buf => .ok { s with buffer := buf }

/-- Where a batch of points lives: on cell interiors or on a face. -/
inductive EvalLocation where
  | cellInterior
  | face
deriving DecidableEq, Repr

/-- Modelled from the spec and the header documentation: the normals the
producer supplies with a batch of M points. On cells (not faces) the
normals vector is always empty; on faces it holds one direction per point
when the normals flag is requested and may be left empty otherwise. Only
the shape is modelled — no claim inspects the directions themselves. -/
def providedNormals (dim : Nat) (flags : UpdateFlags) (loc : EvalLocation)
    (M : Nat) : List (Pt dim) :=
  match loc with
  | .cellInterior => []
  | .face =>
    if flags.update_normal_vectors then
      List.replicate M ⟨List.replicate dim 0⟩
    else
      []

/-- C1: Declaration consistency — for every DataPostprocessor instance the
engine's binding step succeeds only when the length of get_names equals
n_output_variables, and then caches the declaration verbatim (no truncation
or padding); any mismatch fails fast with a declarationMismatch error
before any point-level work. -/
theorem declaration_consistency {dim : Nat} (p : DataPostprocessor dim) :
    (∀ b, bindPost p = Except.ok b →
      b.cached_names.length = b.cached_n ∧ b.cached_names = p.get_names ∧
        b.cached_n = p.n_output_variables) ∧
    (p.get_names.length ≠ p.n_output_variables →
      bindPost p = Except.error PostError.declarationMismatch) := by
  constructor
  · intro b hb
    unfold bindPost at hb
    by_cases h : p.get_names.length = p.n_output_variables
    · rw [if_pos h] at hb
      injection hb with hb
      rw [← hb]
      exact ⟨h, rfl, rfl⟩
    · rw [if_neg h] at hb
      exact absurd hb (by simp)
  · intro h
    unfold bindPost
    rw [if_neg h]

/-- Witness for C1 at the concrete mismatched postprocessor of Scenario C:
one declared name against two declared output variables fails fast. -/
theorem declaration_consistency_check :
    bindPost mismatchPost = Except.error PostError.declarationMismatch :=
  (declaration_consistency mismatchPost).2 (by decide)

/-- C2: Default-failure on unsupported arity — independently for each
entry point: a postprocessor that does not override the scalar entry point
retains the base behavior there, so invoking the scalar form (directly or
through the engine) raises the "not implemented for this data arity"
failure, whatever it does with the vector form; and symmetrically for the
vector entry point. The failure is fatal: the engine propagates it, never
recovers. -/
theorem default_arity_failure {dim : Nat} (p : DataPostprocessor dim)
    (M : Nat) (ins : ScalarInputs dim) (insV : VectorInputs dim) :
    (p.compute_derived_quantities_scalar = defaultComputeScalar dim →
      p.compute_derived_quantities_scalar ins =
        Except.error PostError.notImplementedForArity ∧
      (validScalarLengths p.get_needed_update_flags M ins = true →
        invokeScalar p M ins =
          Except.error PostError.notImplementedForArity)) ∧
    (p.compute_derived_quantities_vector = defaultComputeVector dim →
      p.compute_derived_quantities_vector insV =
        Except.error PostError.notImplementedForArity ∧
      (validVectorLengths p.get_needed_update_flags M insV = true →
        invokeVector p M insV =
          Except.error PostError.notImplementedForArity)) := by
  constructor
  · intro hs
    refine ⟨by rw [hs]; rfl, ?_⟩
    intro hval
    unfold invokeScalar
    rw [hval, hs]
    rfl
  · intro hv
    refine ⟨by rw [hv]; rfl, ?_⟩
    intro hval
    unfold invokeVector
    rw [hval, hv]
    rfl

/-- A concrete postprocessor that overrides only the vector-form entry
point (summing the source components per point) and leaves the scalar
form at the base behavior — the wiring-mismatch scenario of calling the
scalar entry point on a postprocessor that only implements the vector
form. -/
def vectorOnlyPost : DataPostprocessor 2 where
  get_names := ["component_sum"]
  get_needed_update_flags := ⟨true, false, false, false⟩
  n_output_variables := 1
  compute_derived_quantities_vector := fun ins =>
    .ok ((List.range ins.uh.length).map
      (fun i => ⟨i, 0, (ins.uh.getD i []).foldl (fun a q => a + q) 0⟩))

/-- Witness for C2: invoking the scalar entry point on vectorOnlyPost,
which implements only the vector form, fails with the arity error — as
does invoking the vector entry point on minimalPost, which overrides
neither form — each on a valid batch of one point. -/
theorem default_arity_failure_check :
    invokeScalar vectorOnlyPost 1 ⟨[3], [], [], []⟩ =
      Except.error PostError.notImplementedForArity ∧
    invokeVector minimalPost 1 ⟨[[3]], [], [], []⟩ =
      Except.error PostError.notImplementedForArity := by
  constructor
  · exact ((default_arity_failure vectorOnlyPost 1 ⟨[3], [], [], []⟩
      ⟨[], [], [], []⟩).1 rfl).2 (by decide)
  · exact ((default_arity_failure minimalPost 1 ⟨[3], [], [], []⟩
      ⟨[[3]], [], [], []⟩).2 rfl).2 (by decide)

/-- C3: Output width invariant — whenever either entry point succeeds on a
batch of M points, the output buffer holds exactly M records of exactly
n_output_variables components each: the caller pre-sizes the storage to
M×N and the in-place writes preserve that shape. -/
theorem output_width_invariant {dim : Nat} (p : DataPostprocessor dim)
    (M : Nat) (ins : ScalarInputs dim) (insV : VectorInputs dim) :
    (∀ buf, invokeScalar p M ins = Except.ok buf →
      BufferShape buf M p.n_output_variables) ∧
    (∀ buf, invokeVector p M insV = Except.ok buf →
      BufferShape buf M p.n_output_variables) := by
  constructor
  · intro buf hbuf
    unfold invokeScalar at hbuf
    by_cases hval : validScalarLengths p.get_needed_update_flags M ins = true
    · rw [if_pos hval] at hbuf
      cases hc : p.compute_derived_quantities_scalar ins with
      | error e => rw [hc] at hbuf; exact absurd hbuf (by simp)
      | ok ws =>
        rw [hc] at hbuf
        injection hbuf with hbuf
        rw [← hbuf]
        exact bufferShape_applyWrites (bufferShape_freshBuffer M _)
    · rw [if_neg hval] at hbuf
      exact absurd hbuf (by simp)
  · intro buf hbuf
    unfold invokeVector at hbuf
    by_cases hval : validVectorLengths p.get_needed_update_flags M insV = true
    · rw [if_pos hval] at hbuf
      cases hc : p.compute_derived_quantities_vector insV with
      | error e => rw [hc] at hbuf; exact absurd hbuf (by simp)
      | ok ws =>
        rw [hc] at hbuf
        injection hbuf with hbuf
        rw [← hbuf]
        exact bufferShape_applyWrites (bufferShape_freshBuffer M _)
    · rw [if_neg hval] at hbuf
      exact absurd hbuf (by simp)

/-- Witness for C3: the Scenario A batch [3, -4] through magnitudePost
yields the 2×1 buffer [[3], [4]], which has the declared shape. -/
theorem output_width_invariant_check :
    BufferShape [[(3 : ℚ)], [4]] 2 magnitudePost.n_output_variables :=
  (output_width_invariant magnitudePost 2 ⟨[3, -4], [], [], []⟩
    ⟨[], [], [], []⟩).1 [[3], [4]] (by decide)

/-- C4: Flag-gated noninterference — for a postprocessor that reads no
input beyond what get_needed_update_flags requests, two invocations of
either entry point whose inputs agree on all requested fields but differ
arbitrarily (garbage values included) on the unrequested ones produce
identical results. -/
theorem flag_gated_noninterference {dim : Nat} (p : DataPostprocessor dim)
    (hs : FlagGatedScalar p) (hv : FlagGatedVector p) (M : Nat)
    (a b : ScalarInputs dim) (hab : AgreeScalar p.get_needed_update_flags a b)
    (va vb : VectorInputs dim)
    (hvab : AgreeVector p.get_needed_update_flags va vb) :
    invokeScalar p M a = invokeScalar p M b ∧
    invokeVector p M va = invokeVector p M vb := by
  have hcs : p.compute_derived_quantities_scalar a =
      p.compute_derived_quantities_scalar b := by
    rw [hs a, hs b, maskScalar_eq_of_agree hab]
  have hcv : p.compute_derived_quantities_vector va =
      p.compute_derived_quantities_vector vb := by
    rw [hv va, hv vb, maskVector_eq_of_agree hvab]
  constructor
  · unfold invokeScalar
    rw [validScalarLengths_eq_of_agree M hab, hcs]
  · unfold invokeVector
    rw [validVectorLengths_eq_of_agree M hvab, hcv]

/-- Witness for C4: magnitudePost requests only values; poisoning the
unrequested gradients, second derivatives and normals of the second call
leaves the output of the batch [3, -4] unchanged. -/
theorem flag_gated_noninterference_check :
    invokeScalar magnitudePost 2 ⟨[3, -4], [], [], []⟩ =
      invokeScalar magnitudePost 2
        ⟨[3, -4], [⟨[9, 9]⟩], [⟨[[7]]⟩], [⟨[5, 5]⟩]⟩ :=
  (flag_gated_noninterference magnitudePost magnitudePost_flagGatedScalar
    magnitudePost_flagGatedVector 2 ⟨[3, -4], [], [], []⟩
    ⟨[3, -4], [⟨[9, 9]⟩], [⟨[[7]]⟩], [⟨[5, 5]⟩]⟩
    (by unfold AgreeScalar; decide)
    ⟨[], [], [], []⟩ ⟨[], [], [], []⟩ (by unfold AgreeVector; decide)).1

/-- C5: Arity exclusivity — in every run trace, the entry point of each
invocation event is the one selected by the arity of its source field: a
one-component field is only ever dispatched through the scalar calling
convention, a multi-component field only through the vector one, and two
events for the same source field always use the same entry point. -/
theorem arity_exclusivity (fields : List SourceField) (nBatches : Nat)
    (e1 e2 : InvocationEvent) (h1 : e1 ∈ runEvents fields nBatches)
    (h2 : e2 ∈ runEvents fields nBatches) :
    e1.entry = selectedEntryPoint (fields.getD e1.fieldIndex ⟨0⟩) ∧
    ((fields.getD e1.fieldIndex ⟨0⟩).n_components = 1 →
      e1.entry = EntryPointKind.scalarForm) ∧
    ((fields.getD e1.fieldIndex ⟨0⟩).n_components ≠ 1 →
      e1.entry = EntryPointKind.vectorForm) ∧
    (e1.fieldIndex = e2.fieldIndex → e1.entry = e2.entry) := by
  have hs1 := (runEventsFrom_entry h1).2
  have hs2 := (runEventsFrom_entry h2).2
  rw [Nat.sub_zero] at hs1 hs2
  refine ⟨hs1, ?_, ?_, ?_⟩
  · intro h
    rw [hs1]
    unfold selectedEntryPoint
    rw [if_pos h]
  · intro h
    rw [hs1]
    unfold selectedEntryPoint
    rw [if_neg h]
  · intro h
    rw [hs1, hs2, h]

/-- Witness for C5 on a concrete run of a scalar field followed by a
three-component field: the scalar field's event uses the scalar form. -/
theorem arity_exclusivity_check :
    InvocationEvent.entry ⟨0, EntryPointKind.scalarForm⟩ =
      selectedEntryPoint ([⟨1⟩, ⟨3⟩].getD 0 ⟨0⟩) :=
  (arity_exclusivity [⟨1⟩, ⟨3⟩] 1 ⟨0, EntryPointKind.scalarForm⟩
    ⟨1, EntryPointKind.vectorForm⟩ (by decide) (by decide)).1

/-- C6: Mismatched input lengths are a precondition failure — if any of
the values, gradients or second-derivatives sequences whose flag was
requested has length different from the batch length M, the invocation
fails fast with a preconditionViolation error, for either entry point. -/
theorem mismatched_lengths_precondition {dim : Nat}
    (p : DataPostprocessor dim) (M : Nat) (ins : ScalarInputs dim)
    (insV : VectorInputs dim) :
    ((p.get_needed_update_flags.update_values = true ∧ ins.uh.length ≠ M) ∨
     (p.get_needed_update_flags.update_gradients = true ∧
       ins.duh.length ≠ M) ∨
     (p.get_needed_update_flags.update_second_derivatives = true ∧
       ins.dduh.length ≠ M) →
      invokeScalar p M ins = Except.error PostError.preconditionViolation) ∧
    ((p.get_needed_update_flags.update_values = true ∧ insV.uh.length ≠ M) ∨
     (p.get_needed_update_flags.update_gradients = true ∧
       insV.duh.length ≠ M) ∨
     (p.get_needed_update_flags.update_second_derivatives = true ∧
       insV.dduh.length ≠ M) →
      invokeVector p M insV = Except.error PostError.preconditionViolation) := by
  constructor
  · intro h
    have hval : validScalarLengths p.get_needed_update_flags M ins = false := by
      unfold validScalarLengths
      rcases h with ⟨hf, hl⟩ | ⟨hf, hl⟩ | ⟨hf, hl⟩ <;> simp [hf, hl]
    unfold invokeScalar
    rw [hval]
    rfl
  · intro h
    have hval : validVectorLengths p.get_needed_update_flags M insV = false := by
      unfold validVectorLengths
      rcases h with ⟨hf, hl⟩ | ⟨hf, hl⟩ | ⟨hf, hl⟩ <;> simp [hf, hl]
    unfold invokeVector
    rw [hval]
    rfl

/-- Witness for C6: magnitudePost requests values; handing it a batch
declared as three points but only two values fails the precondition. -/
theorem mismatched_lengths_precondition_check :
    invokeScalar magnitudePost 3 ⟨[3, -4], [], [], []⟩ =
      Except.error PostError.preconditionViolation :=
  (mismatched_lengths_precondition magnitudePost 3 ⟨[3, -4], [], [], []⟩
    ⟨[], [], [], []⟩).1 (Or.inl ⟨rfl, by decide⟩)

/-- A concrete engine-operation sequence: a declaration query, a batch
invocation, then a second query answered from the cache. -/
def opsC7 : List (EngineOp 2) :=
  [.queryDecl, .invokeScalarOp 1 ⟨[1], [], [], []⟩, .queryDecl]

/-- C7: Declaration determinism and stability — across any sequence of
engine operations in a run, the postprocessor instance is never modified
and every answer handed out for the declaration queries (whether served
from the cache or by querying the const members directly) equals the
instance's declaration: the engine may query once, cache and share the
result. -/
theorem declaration_query_stability {dim : Nat} (p : DataPostprocessor dim)
    (ops : List (EngineOp dim)) :
    (runOps (initState p) ops).post = p ∧
    ∀ d ∈ (runOps (initState p) ops).answers, d = declOf p := by
  have h : CacheSound p (runOps (initState p) ops) := by
    refine cacheSound_runOps ops ⟨rfl, ?_, ?_⟩
    · intro d hd
      exact absurd hd (by simp [initState])
    · intro d hd
      exact absurd hd (by simp [initState])
  exact ⟨h.1, h.2.2⟩

/-- Witness for C7: after query, invoke, query on magnitudePost, the
answer recorded for the second query is the instance's declaration. -/
theorem declaration_query_stability_check :
    ((⟨true, false, false, false⟩, ["magnitude"], 1) : DeclQueries) =
      declOf magnitudePost :=
  (declaration_query_stability magnitudePost opsC7).2
    (⟨true, false, false, false⟩, ["magnitude"], 1) (by decide)

/-- C8: No side effects beyond the output buffer — a successful call of
either entry point leaves the postprocessor instance and both input
bundles exactly as they were; the only component of the call state that
changes is the output buffer, which receives the invocation's result. -/
theorem frame_effects {dim : Nat} (M : Nat) (s t : CallState dim) :
    (performScalarCall M s = Except.ok t →
      t.post = s.post ∧ t.scalar_inputs = s.scalar_inputs ∧
        t.vector_inputs = s.vector_inputs ∧
        invokeScalar s.post M s.scalar_inputs = Except.ok t.buffer) ∧
    (performVectorCall M s = Except.ok t →
      t.post = s.post ∧ t.scalar_inputs = s.scalar_inputs ∧
        t.vector_inputs = s.vector_inputs ∧
        invokeVector s.post M s.vector_inputs = Except.ok t.buffer) := by
  constructor
  · intro h
    unfold performScalarCall at h
    cases hc : invokeScalar s.post M s.scalar_inputs with
    | error e => rw [hc] at h; exact absurd h (by simp)
    | ok buf =>
      rw [hc] at h
      injection h with h
      rw [← h]
      exact ⟨rfl, rfl, rfl, rfl⟩
  · intro h
    unfold performVectorCall at h
    cases hc : invokeVector s.post M s.vector_inputs with
    | error e => rw [hc] at h; exact absurd h (by simp)
    | ok buf =>
      rw [hc] at h
      injection h with h
      rw [← h]
      exact ⟨rfl, rfl, rfl, rfl⟩

/-- The concrete call state used to witness C8: magnitudePost on an empty
batch, with an empty pre-sized buffer. -/
def stateC8 : CallState 2 :=
  ⟨magnitudePost, ⟨[], [], [], []⟩, ⟨[], [], [], []⟩, []⟩

/-- Witness for C8: a successful scalar call on stateC8 leaves the
instance and both input bundles unchanged. -/
theorem frame_effects_check :
    stateC8.post = stateC8.post ∧
      stateC8.scalar_inputs = stateC8.scalar_inputs ∧
      stateC8.vector_inputs = stateC8.vector_inputs ∧
      invokeScalar stateC8.post 0 stateC8.scalar_inputs =
        Except.ok stateC8.buffer :=
  (frame_effects 0 stateC8 stateC8).1 rfl

/-- C9: Normals shape — the normals sequence supplied with a batch always
has length 0 or M; on cell interiors it is always the empty vector; and
whenever the normals flag is unset it is empty even for points on a face. -/
theorem normals_shape (dim : Nat) (flags : UpdateFlags) (loc : EvalLocation)
    (M : Nat) (v g s : Bool) :
    ((providedNormals dim flags loc M).length = 0 ∨
      (providedNormals dim flags loc M).length = M) ∧
    providedNormals dim flags EvalLocation.cellInterior M = [] ∧
    providedNormals dim ⟨v, g, s, false⟩ loc M = [] := by
  refine ⟨?_, rfl, ?_⟩
  · cases loc with
    | cellInterior => exact Or.inl rfl
    | face =>
      unfold providedNormals
      cases flags.update_normal_vectors with
      | false => exact Or.inl rfl
      | true => exact Or.inr (List.length_replicate _ _)
  · cases loc with
    | cellInterior => rfl
    | face => rfl

/-- C10: Construction defaults — an instance supplying only the three pure
virtual declaration members is constructible; its declaration binds and is
validated before any run, while both unoverridden entry points keep the
base behavior and only fail at evaluation time with the arity error. -/
theorem construction_defaults :
    bindPost minimalPost =
      Except.ok ⟨⟨true, false, false, false⟩, ["q"], 1⟩ ∧
    minimalPost.compute_derived_quantities_scalar = defaultComputeScalar 2 ∧
    minimalPost.compute_derived_quantities_vector = defaultComputeVector 2 ∧
    invokeScalar minimalPost 1 ⟨[3], [], [], []⟩ =
      Except.error PostError.notImplementedForArity ∧
    invokeVector minimalPost 1 ⟨[[3]], [], [], []⟩ =
      Except.error PostError.notImplementedForArity :=
  ⟨rfl, rfl, rfl, rfl, rfl⟩

end DealII
